import Mathlib

/-!
Verification of the tubereng engine core: a shallow embedding of the
transform/cache data model (`tubereng_core/src/lib.rs`), the command queue
(`tubereng_ecs/src/commands.rs`), the engine update loop and the transform
propagation system (`tubereng_engine/src/lib.rs`).

The math primitives (`tubereng_math`: `Vector3f`, `Quaternion`, `Matrix4f`)
and the ECS storage / relationship-graph crate internals
(`tubereng_ecs/src/lib.rs`, `relationship.rs`) are not part of the sources;
where they are needed they are modelled from the specification, as noted on
each definition. Real numbers of the source (`f32`) are modelled as `ℚ`.
-/

namespace Tubereng

/-- Modelled from the spec: `Vector3f` from the `tubereng_math` crate (the
crate is not under the sources; the spec treats math primitives as standard
value types). A 3-component vector with rational components. -/
structure Vector3f where
  x : ℚ
  y : ℚ
  z : ℚ
deriving DecidableEq, Repr

/-- Modelled from the spec: `Vector3f::new`. -/
def Vector3f.new (x y z : ℚ) : Vector3f := ⟨x, y, z⟩

/-- Helper for `natSqrt`: the largest `k` at most the second argument whose
square is at most `n`. -/
def natSqrtAux (n : ℕ) : ℕ → ℕ
  | 0 => 0
  | k + 1 => if (k + 1) * (k + 1) ≤ n then k + 1 else natSqrtAux n k

/-- The integer square root (floor of the square root), by downward scan. -/
def natSqrt (n : ℕ) : ℕ := natSqrtAux n n

/-- Modelled from the spec: a rational stand-in for the `f32` square root used
by `Vector3f::norm`; exact on perfect squares, which is all the developments
below evaluate it on. -/
def ratSqrt (q : ℚ) : ℚ := (natSqrt q.num.toNat : ℚ) / (natSqrt q.den : ℚ)

/-- Modelled from the spec: `Vector3f::norm`, the Euclidean norm. -/
def Vector3f.norm (v : Vector3f) : ℚ := ratSqrt (v.x * v.x + v.y * v.y + v.z * v.z)

/-- Modelled from the spec: `Quaternion` from the `tubereng_math` crate, as
constructed by `Quaternion::new(w, v)` in the sources. -/
structure Quaternion where
  w : ℚ
  v : Vector3f
deriving DecidableEq, Repr

/-- Modelled from the spec: `Quaternion::new`. -/
def Quaternion.new (w : ℚ) (v : Vector3f) : Quaternion := ⟨w, v⟩

/-- Row-major 4x4 matrix, mirroring `Matrix4f::with_values([..; 16])` from the
`tubereng_math` crate; `mIJ` is the element written `value[I][J]` in the
sources. -/
structure Matrix4f where
  m00 : ℚ
  m01 : ℚ
  m02 : ℚ
  m03 : ℚ
  m10 : ℚ
  m11 : ℚ
  m12 : ℚ
  m13 : ℚ
  m20 : ℚ
  m21 : ℚ
  m22 : ℚ
  m23 : ℚ
  m30 : ℚ
  m31 : ℚ
  m32 : ℚ
  m33 : ℚ
deriving DecidableEq, Repr

namespace Matrix4f

/-- Modelled from the spec: `Matrix4f::identity` (the `Identity` trait). -/
def identity : Matrix4f :=
  ⟨1, 0, 0, 0,
   0, 1, 0, 0,
   0, 0, 1, 0,
   0, 0, 0, 1⟩

/-- Modelled from the spec: `Matrix4f::new_translation`, the homogeneous
translation matrix. -/
def new_translation (t : Vector3f) : Matrix4f :=
  ⟨1, 0, 0, t.x,
   0, 1, 0, t.y,
   0, 0, 1, t.z,
   0, 0, 0, 1⟩

/-- Modelled from the spec: `Matrix4f::new_scale`, the diagonal scale
matrix. -/
def new_scale (s : Vector3f) : Matrix4f :=
  ⟨s.x, 0, 0, 0,
   0, s.y, 0, 0,
   0, 0, s.z, 0,
   0, 0, 0, 1⟩

/-- Modelled from the spec: row-by-column multiplication of two 4x4
matrices (`Mul for Matrix4f`). -/
def mul (a b : Matrix4f) : Matrix4f :=
  ⟨a.m00 * b.m00 + a.m01 * b.m10 + a.m02 * b.m20 + a.m03 * b.m30,
   a.m00 * b.m01 + a.m01 * b.m11 + a.m02 * b.m21 + a.m03 * b.m31,
   a.m00 * b.m02 + a.m01 * b.m12 + a.m02 * b.m22 + a.m03 * b.m32,
   a.m00 * b.m03 + a.m01 * b.m13 + a.m02 * b.m23 + a.m03 * b.m33,
   a.m10 * b.m00 + a.m11 * b.m10 + a.m12 * b.m20 + a.m13 * b.m30,
   a.m10 * b.m01 + a.m11 * b.m11 + a.m12 * b.m21 + a.m13 * b.m31,
   a.m10 * b.m02 + a.m11 * b.m12 + a.m12 * b.m22 + a.m13 * b.m32,
   a.m10 * b.m03 + a.m11 * b.m13 + a.m12 * b.m23 + a.m13 * b.m33,
   a.m20 * b.m00 + a.m21 * b.m10 + a.m22 * b.m20 + a.m23 * b.m30,
   a.m20 * b.m01 + a.m21 * b.m11 + a.m22 * b.m21 + a.m23 * b.m31,
   a.m20 * b.m02 + a.m21 * b.m12 + a.m22 * b.m22 + a.m23 * b.m32,
   a.m20 * b.m03 + a.m21 * b.m13 + a.m22 * b.m23 + a.m23 * b.m33,
   a.m30 * b.m00 + a.m31 * b.m10 + a.m32 * b.m20 + a.m33 * b.m30,
   a.m30 * b.m01 + a.m31 * b.m11 + a.m32 * b.m21 + a.m33 * b.m31,
   a.m30 * b.m02 + a.m31 * b.m12 + a.m32 * b.m22 + a.m33 * b.m32,
   a.m30 * b.m03 + a.m31 * b.m13 + a.m32 * b.m23 + a.m33 * b.m33⟩

end Matrix4f

/-- Modelled from the spec: the rotation matrix of a quaternion
(`Quaternion::rotation_matrix`), the standard homogeneous rotation matrix of
a unit quaternion `w + xi + yj + zk`. -/
def Quaternion.rotation_matrix (q : Quaternion) : Matrix4f :=
  let x := q.v.x
  let y := q.v.y
  let z := q.v.z
  let w := q.w
  ⟨1 - 2 * (y * y + z * z), 2 * (x * y - w * z), 2 * (x * z + w * y), 0,
   2 * (x * y + w * z), 1 - 2 * (x * x + z * z), 2 * (y * z - w * x), 0,
   2 * (x * z - w * y), 2 * (y * z + w * x), 1 - 2 * (x * x + y * y), 0,
   0, 0, 0, 1⟩

/-- Modelled from the spec: `From<Matrix4f> for Quaternion` of the
`tubereng_math` crate, recovering a quaternion from a rotation matrix by the
standard trace formula `w = sqrt(1 + m00 + m11 + m22) / 2`,
`x = (m21 - m12) / (4w)`, `y = (m02 - m20) / (4w)`, `z = (m10 - m01) / (4w)`. -/
def Quaternion.fromMatrix4 (m : Matrix4f) : Quaternion :=
  let w := ratSqrt (1 + m.m00 + m.m11 + m.m22) / 2
  ⟨w, ⟨(m.m21 - m.m12) / (4 * w),
       (m.m02 - m.m20) / (4 * w),
       (m.m10 - m.m01) / (4 * w)⟩⟩

/-- The `Transform` component (`tubereng_core/src/lib.rs`): translation,
scale and rotation. -/
structure Transform where
  translation : Vector3f
  scale : Vector3f
  rotation : Quaternion
deriving DecidableEq, Repr

/-- `Transform::default`: zero translation, unit scale, identity
quaternion (`tubereng_core/src/lib.rs`, `Default for Transform`). -/
def Transform.default : Transform :=
  ⟨Vector3f.new 0 0 0, Vector3f.new 1 1 1, Quaternion.new 1 (Vector3f.new 0 0 0)⟩

/-- `Transform::as_matrix4` (`tubereng_core/src/lib.rs`):
`new_scale(scale) * new_translation(translation) * rotation.rotation_matrix()`. -/
def Transform.as_matrix4 (t : Transform) : Matrix4f :=
  (Matrix4f.new_scale t.scale |>.mul (Matrix4f.new_translation t.translation)).mul
    t.rotation.rotation_matrix

/-- `From<Matrix4f> for Transform` (`tubereng_core/src/lib.rs`): reads the
translation from the last column, the scale as the norms of the first three
columns, and the rotation as the quaternion of the scale-normalised upper-left
3x3 block. -/
def Transform.fromMatrix4 (value : Matrix4f) : Transform :=
  let translation := Vector3f.new value.m03 value.m13 value.m23
  let scale := Vector3f.new
    (Vector3f.new value.m00 value.m10 value.m20).norm
    (Vector3f.new value.m01 value.m11 value.m21).norm
    (Vector3f.new value.m02 value.m12 value.m22).norm
  let rotation_matrix : Matrix4f :=
    ⟨value.m00 / scale.x, value.m01 / scale.y, value.m02 / scale.z, 0,
     value.m10 / scale.x, value.m11 / scale.y, value.m12 / scale.z, 0,
     value.m20 / scale.x, value.m21 / scale.y, value.m22 / scale.z, 0,
     0, 0, 0, 1⟩
  let rotation := Quaternion.fromMatrix4 rotation_matrix
  ⟨translation, scale, rotation⟩

/-- The `TransformCache` resource (`tubereng_core/src/lib.rs`): a map from
entity id to the last computed world matrix; the backing `HashMap` is
modelled as an association list where the most recent insertion shadows
older ones. -/
structure TransformCache where
  transform_matrices : List (ℕ × Matrix4f)
deriving DecidableEq, Repr

namespace TransformCache

/-- `TransformCache::new`: the empty cache. -/
def new : TransformCache := ⟨[]⟩

/-- `TransformCache::set`: `HashMap::insert`, the new binding shadowing any
older binding for the same id. -/
def set (c : TransformCache) (id : ℕ) (matrix : Matrix4f) : TransformCache :=
  ⟨(id, matrix) :: c.transform_matrices⟩

/-- `TransformCache::get`: the stored matrix, or the identity when the id is
absent (`unwrap_or(&Matrix4f::identity())`). -/
def get (c : TransformCache) (id : ℕ) : Matrix4f :=
  match c.transform_matrices.find? (fun p => p.1 = id) with
  | some p => p.2
  | none => Matrix4f.identity

end TransformCache

/-- Modelled from the spec: the `ChildOf` relationship graph
(`tubereng_ecs/src/relationship.rs` is not under the sources). A directed
edge set over entity ids where an edge `(child, parent)` records "child is
related-to parent"; the backing hash sets have unspecified iteration order,
determinised here as list order. -/
structure ChildOfGraph where
  edges : List (ℕ × ℕ)
deriving DecidableEq, Repr

namespace ChildOfGraph

/-- Modelled from the spec: `successors(child) -> parents`, the direct
parents of an entity (targets of its outgoing edges). -/
def successors (g : ChildOfGraph) (child : ℕ) : List ℕ :=
  (g.edges.filter (fun e => e.1 = child)).map (fun e => e.2)

/-- Modelled from the spec: `sources(parent) -> children`, the direct
children of an entity (inverse edge lookup); absent (`none`) when the entity
has no recorded children. -/
def sources (g : ChildOfGraph) (parent : ℕ) : Option (List ℕ) :=
  let children := (g.edges.filter (fun e => e.2 = parent)).map (fun e => e.1)
  if children.isEmpty then none else some children

/-- Whether an entity has an outgoing edge (a recorded parent). -/
def hasParent (g : ChildOfGraph) (child : ℕ) : Bool :=
  g.edges.any (fun e => e.1 = child)

/-- Modelled from the spec: `leaves(upper_bound_id)`, the ids in
`[0, upper_bound_id)` with no outgoing edge — the entry points for the
propagation traversal. -/
def leaves (g : ChildOfGraph) (upper_bound_id : ℕ) : List ℕ :=
  (List.range upper_bound_id).filter (fun i => !g.hasParent i)

/-- Work loop for `ancestors`: expands a frontier upward through parent
edges, accumulating newly seen ancestors; fuelled because an arbitrary edge
list may contain cycles. -/
def ancestorsAux (g : ChildOfGraph) : ℕ → List ℕ → List ℕ → List ℕ
  | 0, _, acc => acc
  | _ + 1, [], acc => acc
  | fuel + 1, x :: frontier, acc =>
    let fresh := (g.successors x).filter (fun p => !acc.contains p)
    ancestorsAux g fuel (frontier ++ fresh) (acc ++ fresh)

/-- Modelled from the spec: `ancestors(entity) -> transitive parents`, the
transitive closure of the parent relation above an entity. -/
def ancestors (g : ChildOfGraph) (entity : ℕ) : List ℕ :=
  ancestorsAux g ((g.edges.length + 1) * (g.edges.length + 1))
    (g.successors entity) (g.successors entity)

end ChildOfGraph

/-- Modelled from the spec: the slice of the ECS `Storage`
(`tubereng_ecs/src/lib.rs` is not under the sources) that the transform
propagation system touches: the entity-id allocation counter, the optionally
registered `ChildOf` relationship graph, the `Transform` component table, the
per-frame `Transform` dirty flags, and the `TransformCache` resource. -/
structure Storage where
  next_entity_id : ℕ
  child_of : Option ChildOfGraph
  transforms : ℕ → Option Transform
  dirty_transform : ℕ → Bool
  cache : TransformCache

/-- `Vec::pop`: removes and returns the last element of a vector. -/
def vecPop {α : Type} (l : List α) : Option (α × List α) :=
  match l.reverse with
  | [] => none
  | x :: rest => some (x, rest.reverse)

/-- The outcome of a fuelled run of the propagation system: normal
completion, a Rust panic (a failed `unwrap`), or fuel exhaustion standing in
for non-termination of the source's unbounded loops. -/
inductive RunOutcome (α : Type) where
  | ok (a : α)
  | panicked
  | fuelOut
deriving DecidableEq, Repr

/-- First loop of `compute_effective_transforms_system`
(`tubereng_engine/src/lib.rs` lines 152-161): pops entities to visit from the
end of the work vector; a dirty entity is recorded together with all its
ancestors, a clean one pushes its children to be visited. Returns `none` on
fuel exhaustion; this loop has no panicking operation. -/
def visitLoop (g : ChildOfGraph) (dirty : ℕ → Bool) :
    ℕ → List ℕ → List ℕ → Option (List ℕ)
  | 0, _, _ => none
  | fuel + 1, to_visit, acc =>
    match vecPop to_visit with
    | none => some acc
    | some (entity_to_visit, rest) =>
      if dirty entity_to_visit then
        visitLoop g dirty fuel rest
          (acc ++ entity_to_visit :: g.ancestors entity_to_visit)
      else
        visitLoop g dirty fuel (rest ++ ((g.sources entity_to_visit).getD [])) acc

/-- The local matrix a parent contributes in the recompute loop
(`tubereng_engine/src/lib.rs` lines 175-177): the parent's own `Transform`
as a matrix, or the identity when the parent has no `Transform` component
(`map_or_else(Matrix4f::identity, Transform::as_matrix4)`). -/
def parentMatrix (tf : ℕ → Option Transform) (parent : ℕ) : Matrix4f :=
  match tf parent with
  | some t => t.as_matrix4
  | none => Matrix4f.identity

/-- Second loop of `compute_effective_transforms_system`
(`tubereng_engine/src/lib.rs` lines 166-187): pops entities from the end of
the recompute vector, takes the entity's own `Transform` (panicking via
`unwrap` when absent), left-multiplies by each parent's matrix, records the
cache write, and pushes the entity's children for cascading recompute. The
cache writes are collected in issue order. -/
def recomputeLoop (g : ChildOfGraph) (tf : ℕ → Option Transform) :
    ℕ → List ℕ → List (ℕ × Matrix4f) → RunOutcome (List (ℕ × Matrix4f))
  | 0, _, _ => .fuelOut
  | fuel + 1, stack, writes =>
    match vecPop stack with
    | none => .ok writes
    | some (entity_id, rest) =>
      match tf entity_id with
      | none => .panicked
      | some t =>
        let matrix := (g.successors entity_id).foldl
          (fun m parent => (parentMatrix tf parent).mul m) t.as_matrix4
        recomputeLoop g tf fuel (rest ++ ((g.sources entity_id).getD []))
          (writes ++ [(entity_id, matrix)])

/-- Applies a list of cache writes in order (`TransformCache::set` per
write). -/
def applyWrites (c : TransformCache) (writes : List (ℕ × Matrix4f)) : TransformCache :=
  writes.foldl (fun c w => c.set w.1 w.2) c

/-- Lifts the outcome of the recompute loop to the whole storage: on normal
completion the collected cache writes are applied to the `TransformCache`
resource, the only part of storage the system mutates. -/
def applyRecomputeOutcome (s : Storage) :
    RunOutcome (List (ℕ × Matrix4f)) → RunOutcome Storage
  | .panicked => .panicked
  | .fuelOut => .fuelOut
  | .ok writes => .ok { s with cache := applyWrites s.cache writes }

/-- The stage of `compute_effective_transforms_system` after the `ChildOf`
graph has been obtained: the visit loop from the leaves bounded by
`next_entity_id`, then the recompute loop over the recorded entities, whose
cache writes are stored in the `TransformCache`. -/
def computeWithGraph (fuel : ℕ) (s : Storage) (g : ChildOfGraph) : RunOutcome Storage :=
  match visitLoop g s.dirty_transform fuel (g.leaves s.next_entity_id) [] with
  | none => .fuelOut
  | some dirty_transform_entities =>
    applyRecomputeOutcome s (recomputeLoop g s.transforms fuel dirty_transform_entities [])

/-- `compute_effective_transforms_system` (`tubereng_engine/src/lib.rs`
lines 144-188): returns unchanged storage when no `ChildOf` graph is
registered, otherwise runs the visit loop from the leaves bounded by
`next_entity_id`, then the recompute loop over the recorded entities, and
stores the resulting cache writes in the `TransformCache`. Both source loops
are unbounded; `fuel` bounds them here. -/
def computeEffectiveTransforms (fuel : ℕ) (s : Storage) : RunOutcome Storage :=
  match s.child_of with
  | none => .ok s
  | some g => computeWithGraph fuel s g

/-- The observable steps `Engine::update` performs, in source order
(`tubereng_engine/src/lib.rs` lines 61-69): insert the `DeltaTime` resource,
clear the per-frame dirty flags, optionally run the one-shot init system,
run the registered systems. -/
inductive EngineStep where
  | insertDeltaTime
  | clearDirtyFlags
  | runInitSystem
  | runSystems
deriving DecidableEq, Repr

/-- The `Engine` state that `update` consults: the `init_system_ran` flag
(`tubereng_engine/src/lib.rs` line 34); the ECS contents are opaque to the
init-gating logic. -/
structure EngineState where
  init_system_ran : Bool
deriving DecidableEq, Repr

/-- `Engine::update` (`tubereng_engine/src/lib.rs` lines 61-69) as a step
trace: inserts `DeltaTime`, clears dirty flags, runs the init system only
when `init_system_ran` is false (setting the flag), then runs the systems. -/
def Engine.update (e : EngineState) : List EngineStep × EngineState :=
  ([EngineStep.insertDeltaTime, EngineStep.clearDirtyFlags] ++
      (if e.init_system_ran then [] else [EngineStep.runInitSystem]) ++
      [EngineStep.runSystems],
   { init_system_ran := true })

/-- The concatenated step trace of `n` successive `Engine::update` calls
from a given engine state, with the resulting state. -/
def Engine.updates : ℕ → EngineState → List EngineStep × EngineState
  | 0, e => ([], e)
  | n + 1, e =>
    let (steps, e') := Engine.update e
    let (rest, e'') := Engine.updates n e'
    (steps ++ rest, e'')

/-- A fresh engine as `EngineBuilder::build` leaves it: the init system has
not run (`tubereng_engine/src/lib.rs` line 130). -/
def Engine.fresh : EngineState := ⟨false⟩

/-- One call on a `CommandQueue` (`tubereng_ecs/src/commands.rs` lines
15-39), with the payload each method captures. -/
inductive QueueCall (ED R S : Type) where
  | insert (entity_definition : ED)
  | delete (entity_id : ℕ)
  | insertResource (resource : R)
  | registerSystem (system : S)

/-- The command each `CommandQueue` method pushes
(`tubereng_ecs/src/commands.rs`): `insert` pushes an `InsertEntity`,
`delete` a `DeleteEntity`, `insert_resource` an `InsertResource`,
`register_system` a `RegisterSystem`. -/
inductive Command (ED R S : Type) where
  | insertEntity (entity_definition : ED)
  | deleteEntity (entity_id : ℕ)
  | insertResource (resource : R)
  | registerSystem (system : S)

/-- `CommandQueue` (`tubereng_ecs/src/commands.rs` line 8): a growable
vector of boxed commands; the interior-mutability `RefCell` wrapper has no
observable effect in a sequential model. -/
structure CommandQueue (ED R S : Type) where
  commands : List (Command ED R S)

namespace CommandQueue

/-- `CommandQueue::new`: the empty queue. -/
def new {ED R S : Type} : CommandQueue ED R S := ⟨[]⟩

/-- `CommandQueue::push_command` (`tubereng_ecs/src/commands.rs` lines
41-46): appends one boxed command at the end of the vector. -/
def push_command {ED R S : Type} (q : CommandQueue ED R S) (c : Command ED R S) :
    CommandQueue ED R S :=
  ⟨q.commands ++ [c]⟩

/-- `CommandQueue::insert`: pushes `InsertEntity::new(entity_definition)`. -/
def insert {ED R S : Type} (q : CommandQueue ED R S) (ed : ED) : CommandQueue ED R S :=
  q.push_command (Command.insertEntity ed)

/-- `CommandQueue::delete`: pushes `DeleteEntity::new(entity_id)`. -/
def delete {ED R S : Type} (q : CommandQueue ED R S) (id : ℕ) : CommandQueue ED R S :=
  q.push_command (Command.deleteEntity id)

/-- `CommandQueue::insert_resource`: pushes `InsertResource::new(resource)`. -/
def insert_resource {ED R S : Type} (q : CommandQueue ED R S) (r : R) :
    CommandQueue ED R S :=
  q.push_command (Command.insertResource r)

/-- `CommandQueue::register_system`: pushes a `RegisterSystem` command for
the given system. -/
def register_system {ED R S : Type} (q : CommandQueue ED R S) (s : S) :
    CommandQueue ED R S :=
  q.push_command (Command.registerSystem s)

/-- `IntoIterator for CommandQueue` (`tubereng_ecs/src/commands.rs` lines
55-62): drains the underlying vector front to back. -/
def into_iter {ED R S : Type} (q : CommandQueue ED R S) : List (Command ED R S) :=
  q.commands

/-- Performs one queue call. -/
def call {ED R S : Type} (q : CommandQueue ED R S) : QueueCall ED R S → CommandQueue ED R S
  | QueueCall.insert ed => q.insert ed
  | QueueCall.delete id => q.delete id
  | QueueCall.insertResource r => q.insert_resource r
  | QueueCall.registerSystem s => q.register_system s

end CommandQueue

/-- The command a given queue call pushes. -/
def QueueCall.command {ED R S : Type} : QueueCall ED R S → Command ED R S
  | insert ed => Command.insertEntity ed
  | delete id => Command.deleteEntity id
  | insertResource r => Command.insertResource r
  | registerSystem s => Command.registerSystem s

/-- Modelled from the spec: the slice of `Ecs` state
(`tubereng_ecs/src/lib.rs` is not under the sources) touched by command
application: inserted entity bundles, resources, registered systems, and
deleted entity ids. -/
structure EcsState (ED R S : Type) where
  entities : List ED
  resources : List R
  systems : List S
  deleted_ids : List ℕ

/-- Modelled from the spec: `Ecs::insert`, storing an entity bundle. -/
def EcsState.insert {ED R S : Type} (e : EcsState ED R S) (ed : ED) : EcsState ED R S :=
  { e with entities := e.entities ++ [ed] }

/-- Modelled from the spec: `Ecs::delete`, removing an entity id. -/
def EcsState.delete {ED R S : Type} (e : EcsState ED R S) (id : ℕ) : EcsState ED R S :=
  { e with deleted_ids := e.deleted_ids ++ [id] }

/-- Modelled from the spec: `Ecs::insert_resource`, storing a resource
singleton. -/
def EcsState.insert_resource {ED R S : Type} (e : EcsState ED R S) (r : R) :
    EcsState ED R S :=
  { e with resources := e.resources ++ [r] }

/-- Modelled from the spec: `Ecs::insert_system`, registering a system. -/
def EcsState.insert_system {ED R S : Type} (e : EcsState ED R S) (s : S) :
    EcsState ED R S :=
  { e with systems := e.systems ++ [s] }

/-- The `InsertEntity` command (`tubereng_ecs/src/commands.rs` lines 68-80):
owns its entity definition in an `Option`, consumed by `apply`. -/
structure InsertEntity (ED : Type) where
  entity_definition : Option ED

/-- `InsertEntity::new`: wraps the definition in `Some`. -/
def InsertEntity.new {ED : Type} (ed : ED) : InsertEntity ED := ⟨some ed⟩

/-- `InsertEntity::apply` (`tubereng_ecs/src/commands.rs` lines 82-87):
`take().unwrap()` on the payload, then `ecs.insert`; `none` models the
`unwrap` panic on an already-consumed payload. -/
def InsertEntity.apply {ED R S : Type} (c : InsertEntity ED) (ecs : EcsState ED R S) :
    Option (InsertEntity ED × EcsState ED R S) :=
  match c.entity_definition with
  | none => none
  | some ed => some (⟨none⟩, ecs.insert ed)

/-- The `DeleteEntity` command (`tubereng_ecs/src/commands.rs` lines
89-98): owns the entity id directly. -/
structure DeleteEntity where
  entity_id : ℕ

/-- `DeleteEntity::new`. -/
def DeleteEntity.new (id : ℕ) : DeleteEntity := ⟨id⟩

/-- `DeleteEntity::apply` (`tubereng_ecs/src/commands.rs` lines 100-104):
always succeeds, no owned `Option` payload. -/
def DeleteEntity.apply {ED R S : Type} (c : DeleteEntity) (ecs : EcsState ED R S) :
    Option (DeleteEntity × EcsState ED R S) :=
  some (c, ecs.delete c.entity_id)

/-- The `InsertResource` command (`tubereng_ecs/src/commands.rs` lines
106-122): owns its resource in an `Option`, consumed by `apply`. -/
structure InsertResource (R : Type) where
  resource : Option R

/-- `InsertResource::new`: wraps the resource in `Some`. -/
def InsertResource.new {R : Type} (r : R) : InsertResource R := ⟨some r⟩

/-- `InsertResource::apply` (`tubereng_ecs/src/commands.rs` lines 124-131):
`take().unwrap()` on the payload, then `ecs.insert_resource`. -/
def InsertResource.apply {ED R S : Type} (c : InsertResource R) (ecs : EcsState ED R S) :
    Option (InsertResource R × EcsState ED R S) :=
  match c.resource with
  | none => none
  | some r => some (⟨none⟩, ecs.insert_resource r)

/-- The `RegisterSystem` command (`tubereng_ecs/src/commands.rs` lines
133-148): owns its system in an `Option`, consumed by `apply`. -/
structure RegisterSystem (S : Type) where
  system : Option S

/-- `RegisterSystem::new`: wraps the converted system in `Some`. -/
def RegisterSystem.new {S : Type} (s : S) : RegisterSystem S := ⟨some s⟩

/-- `RegisterSystem::apply` (`tubereng_ecs/src/commands.rs` lines 150-157):
`take().unwrap()` on the payload, then `ecs.insert_system`. -/
def RegisterSystem.apply {ED R S : Type} (c : RegisterSystem S) (ecs : EcsState ED R S) :
    Option (RegisterSystem S × EcsState ED R S) :=
  match c.system with
  | none => none
  | some s => some (⟨none⟩, ecs.insert_system s)

/-- The storage a run produced, or a fallback for an abnormal outcome. -/
def RunOutcome.getD (r : RunOutcome Storage) (fallback : Storage) : Storage :=
  match r with
  | .ok s => s
  | _ => fallback

/-- Whether a run completed normally. -/
def RunOutcome.isOk {α : Type} : RunOutcome α → Bool
  | .ok _ => true
  | _ => false

/-- The value of the last write for a given id in a write sequence, if any
(the "most recently stored" matrix): a write later in the sequence shadows
every earlier write for the same id. -/
def TransformCache.lastWrite : List (ℕ × Matrix4f) → ℕ → Option Matrix4f
  | [], _ => none
  | w :: writes, id =>
    match TransformCache.lastWrite writes id with
    | some m => some m
    | none => if w.1 = id then some w.2 else none

/-- A `Transform` with the given translation, default scale and default
rotation. -/
def translationOnly (x y z : ℚ) : Transform :=
  ⟨Vector3f.new x y z, Vector3f.new 1 1 1, Quaternion.new 1 (Vector3f.new 0 0 0)⟩

/-- The three-entity chain of claim C1: entity 0 = A (root, translation
(1,0,0)), entity 1 = B (child of A, translation (0,1,0)), entity 2 = C
(child of B, translation (0,0,1)); all `Transform`s dirty, empty cache. -/
def chainStorage : Storage :=
  { next_entity_id := 3
    child_of := some ⟨[(1, 0), (2, 1)]⟩
    transforms := fun n =>
      if n = 0 then some (translationOnly 1 0 0)
      else if n = 1 then some (translationOnly 0 1 0)
      else if n = 2 then some (translationOnly 0 0 1)
      else none
    dirty_transform := fun _ => true
    cache := TransformCache.new }

/-- The storage after the propagation run on the three-entity chain. -/
def chainStorageAfter : Storage :=
  (computeEffectiveTransforms 16 chainStorage).getD chainStorage

/-- The two-entity hierarchy of claim C2, first frame: entity 0 = A (root,
translation (1,0,0)), entity 1 = B (child of A, translation (0,1,0)); both
`Transform`s dirty, empty cache. -/
def pairStorageFirst : Storage :=
  { next_entity_id := 2
    child_of := some ⟨[(1, 0)]⟩
    transforms := fun n =>
      if n = 0 then some (translationOnly 1 0 0)
      else if n = 1 then some (translationOnly 0 1 0)
      else none
    dirty_transform := fun _ => true
    cache := TransformCache.new }

/-- The storage after the first propagation run of claim C2. -/
def pairStorageAfterFirst : Storage :=
  (computeEffectiveTransforms 16 pairStorageFirst).getD pairStorageFirst

/-- The storage of claim C2 before the second propagation run: A's
translation changed to (2,0,0), only A marked dirty, everything else (in
particular B's `Transform` and the cache of the first run) untouched. -/
def pairStorageSecond : Storage :=
  { pairStorageAfterFirst with
    transforms := fun n =>
      if n = 0 then some (translationOnly 2 0 0)
      else pairStorageAfterFirst.transforms n
    dirty_transform := fun n => n == 0 }

/-- The storage after the second propagation run of claim C2. -/
def pairStorageAfterSecond : Storage :=
  (computeEffectiveTransforms 16 pairStorageSecond).getD pairStorageSecond

/-- The precondition of claim C8 on a storage and its registered `ChildOf`
graph: every dirty entity, every ancestor of a dirty entity, and every child
of an entity that has a `Transform` (the entities cascaded into the
recompute stack via `sources`) has a `Transform` component. -/
def transformsCoverRecompute (s : Storage) (g : ChildOfGraph) : Prop :=
  (∀ e, s.dirty_transform e = true → (s.transforms e).isSome) ∧
  (∀ e a, s.dirty_transform e = true → a ∈ g.ancestors e → (s.transforms a).isSome) ∧
  (∀ e c, (s.transforms e).isSome → c ∈ (g.sources e).getD [] → (s.transforms c).isSome)

/-- A storage violating the precondition of claim C8: entity 1 = B is dirty
and has a `Transform`, but its parent, entity 0 = A, has no `Transform`
component; A is recorded for recompute as an ancestor of the dirty B. -/
def missingAncestorStorage : Storage :=
  { next_entity_id := 2
    child_of := some ⟨[(1, 0)]⟩
    transforms := fun n => if n = 1 then some (translationOnly 0 1 0) else none
    dirty_transform := fun n => n == 1
    cache := TransformCache.new }

/-- A storage satisfying the precondition of claim C8: as
`missingAncestorStorage`, but A does have a `Transform`. -/
def coveredAncestorStorage : Storage :=
  { next_entity_id := 2
    child_of := some ⟨[(1, 0)]⟩
    transforms := fun n =>
      if n = 0 then some (translationOnly 1 0 0)
      else if n = 1 then some (translationOnly 0 1 0)
      else none
    dirty_transform := fun n => n == 1
    cache := TransformCache.new }

/-- A one-entity storage on which the propagation run completes, used to
instantiate the idempotence theorem: entity 0 is a root with a dirty
`Transform`. -/
def singleStorage : Storage :=
  { next_entity_id := 1
    child_of := some ⟨[]⟩
    transforms := fun n => if n = 0 then some (translationOnly 3 4 5) else none
    dirty_transform := fun _ => true
    cache := TransformCache.new }

/-- The storage `singleStorage` reaches after one propagation run. -/
def singleStorageAfter : Storage :=
  { singleStorage with
    cache := TransformCache.new.set 0 (Transform.as_matrix4 (translationOnly 3 4 5)) }

/-- A storage with no registered `ChildOf` relationship graph, used to
instantiate the no-op theorem of claim C7. -/
def noGraphStorage : Storage :=
  { next_entity_id := 5
    child_of := none
    transforms := fun n => if n = 0 then some (translationOnly 7 0 0) else none
    dirty_transform := fun _ => true
    cache := TransformCache.new.set 3 (Matrix4f.new_translation (Vector3f.new 1 2 3)) }

/-! ## Helper lemmas -/

/-- Setting one id leaves every other id's `get` unchanged and makes the set
id return the new matrix. -/
theorem TransformCache.get_set (c : TransformCache) (i : ℕ) (m : Matrix4f) (id : ℕ) :
    (c.set i m).get id = if i = id then m else c.get id := by
  by_cases h : i = id <;>
    simp [TransformCache.get, TransformCache.set, List.find?_cons, h]

/-- `get` after a sequence of writes: the last write for the id when there is
one, otherwise the value in the initial cache. -/
theorem TransformCache.get_applyWrites (writes : List (ℕ × Matrix4f)) (c : TransformCache)
    (id : ℕ) :
    (applyWrites c writes).get id = (TransformCache.lastWrite writes id).getD (c.get id) := by
  induction writes generalizing c with
  | nil => rfl
  | cons w writes ih =>
    have hstep : applyWrites c (w :: writes) = applyWrites (c.set w.1 w.2) writes := rfl
    rw [hstep, ih]
    cases hlw : TransformCache.lastWrite writes id with
    | some m => simp [TransformCache.lastWrite, hlw]
    | none =>
      by_cases h : w.1 = id <;>
        simp [TransformCache.lastWrite, hlw, TransformCache.get_set, h]

/-- `Vec::pop` returns an element of the vector, and the remaining vector's
elements all come from the vector. -/
theorem vecPop_mem {α : Type} {l : List α} {x : α} {rest : List α}
    (h : vecPop l = some (x, rest)) : x ∈ l ∧ ∀ y ∈ rest, y ∈ l := by
  unfold vecPop at h
  cases hrev : l.reverse with
  | nil => rw [hrev] at h; exact absurd h (by simp)
  | cons a tail =>
    rw [hrev] at h
    have hx : a = x ∧ tail.reverse = rest := by
      injection h with h1
      injection h1 with h2 h3
      exact ⟨h2, h3⟩
    have hl : l = tail.reverse ++ [a] := by
      have := congrArg List.reverse hrev
      simpa using this
    constructor
    · rw [hl, ← hx.1]; simp
    · intro y hy
      rw [hl]
      rw [← hx.2] at hy
      simp [hy]

/-- Folding queue calls appends their commands in issue order. -/
theorem CommandQueue.commands_foldl_call {ED R S : Type} (calls : List (QueueCall ED R S))
    (q : CommandQueue ED R S) :
    (calls.foldl CommandQueue.call q).commands = q.commands ++ calls.map QueueCall.command := by
  induction calls generalizing q with
  | nil => simp
  | cons c calls ih =>
    have hcall : (q.call c).commands = q.commands ++ [c.command] := by
      cases c <;> rfl
    calc ((c :: calls).foldl CommandQueue.call q).commands
        = (calls.foldl CommandQueue.call (q.call c)).commands := rfl
      _ = (q.call c).commands ++ calls.map QueueCall.command := ih (q.call c)
      _ = q.commands ++ (c :: calls).map QueueCall.command := by
          rw [hcall]; simp

/-- After the init system has run, every further update emits only the three
regular steps and keeps the flag set. -/
theorem Engine.updates_ran (n : ℕ) :
    Engine.updates n ⟨true⟩ =
      ((List.replicate n
          [EngineStep.insertDeltaTime, EngineStep.clearDirtyFlags, EngineStep.runSystems]).flatten,
       ⟨true⟩) := by
  induction n with
  | zero => rfl
  | succ n ih =>
    simp only [Engine.updates, Engine.update, if_pos, List.replicate_succ]
    rw [ih]
    simp

/-! ## Claim theorems -/

/-- C10: for every cache built from the fresh cache by a sequence of `set`
calls and every entity id, `get` returns the most recently stored matrix for
that id, and the identity matrix when no `set` for that id has occurred; in
particular `get` on a fresh cache returns the identity for every id and is
total. -/
theorem transform_cache_get_returns_last_set (writes : List (ℕ × Matrix4f)) (id : ℕ) :
    TransformCache.new.get id = Matrix4f.identity ∧
    (applyWrites TransformCache.new writes).get id =
      (TransformCache.lastWrite writes id).getD Matrix4f.identity := by
  constructor
  · rfl
  · rw [TransformCache.get_applyWrites]
    rfl

/-- C7: when no `ChildOf` relationship graph is registered, the transform
propagation system returns immediately and leaves the whole storage — in
particular every `TransformCache` entry — unchanged. -/
theorem no_child_of_graph_is_noop (fuel : ℕ) (s : Storage) (h : s.child_of = none) :
    computeEffectiveTransforms fuel s = RunOutcome.ok s := by
  unfold computeEffectiveTransforms
  rw [h]

/-- Witness for C7: a concrete storage without a `ChildOf` graph is returned
unchanged. -/
theorem no_child_of_graph_is_noop_witness :
    computeEffectiveTransforms 3 noGraphStorage = RunOutcome.ok noGraphStorage :=
  no_child_of_graph_is_noop 3 noGraphStorage rfl

/-- C4: draining a queue built by any sequence of `insert`, `delete`,
`insert_resource` and `register_system` calls yields exactly one command per
call, in issue (FIFO) order. -/
theorem command_queue_drains_fifo (ED R S : Type) (calls : List (QueueCall ED R S)) :
    (calls.foldl CommandQueue.call CommandQueue.new).into_iter =
      calls.map QueueCall.command := by
  rw [CommandQueue.into_iter, CommandQueue.commands_foldl_call]
  rfl

/-- C5: the first `apply` of every command built by a queue constructor
succeeds — the `Option` payload is `Some` at that point, so the
`take().unwrap()` cannot fail — and consumes the payload. -/
theorem command_first_apply_total (ED R S : Type) (ed : ED) (r : R) (sys : S) (id : ℕ)
    (ecs : EcsState ED R S) :
    (InsertEntity.new ed).apply ecs = some (⟨none⟩, ecs.insert ed) ∧
    (DeleteEntity.new id).apply ecs = some (DeleteEntity.new id, ecs.delete id) ∧
    (InsertResource.new r).apply ecs = some (⟨none⟩, ecs.insert_resource r) ∧
    (RegisterSystem.new sys).apply ecs = some (⟨none⟩, ecs.insert_system sys) :=
  ⟨rfl, rfl, rfl, rfl⟩

/-- C3: across any number of `Engine::update` calls on a fresh engine, the
init system step occurs at most once; when at least one update runs, the
first update's trace is exactly insert-delta-time, clear-dirty-flags,
run-init-system, run-systems — the init step after the dirty-flag clear and
before the regular systems — and every later update emits only the three
regular steps. -/
theorem init_system_runs_once (n : ℕ) :
    (Engine.updates n Engine.fresh).1.count EngineStep.runInitSystem ≤ 1 ∧
    (1 ≤ n → (Engine.updates n Engine.fresh).1 =
      [EngineStep.insertDeltaTime, EngineStep.clearDirtyFlags, EngineStep.runInitSystem,
        EngineStep.runSystems] ++
      (List.replicate (n - 1)
        [EngineStep.insertDeltaTime, EngineStep.clearDirtyFlags,
          EngineStep.runSystems]).flatten) := by
  have hjoin : ∀ m : ℕ, ((List.replicate m
      [EngineStep.insertDeltaTime, EngineStep.clearDirtyFlags,
        EngineStep.runSystems]).flatten).count EngineStep.runInitSystem = 0 := by
    intro m
    induction m with
    | zero => rfl
    | succ m ih => simpa [List.replicate_succ] using ih
  cases n with
  | zero => exact ⟨by simp [Engine.updates], by omega⟩
  | succ m =>
    have htrace : (Engine.updates (m + 1) Engine.fresh).1 =
        [EngineStep.insertDeltaTime, EngineStep.clearDirtyFlags, EngineStep.runInitSystem,
          EngineStep.runSystems] ++
        (List.replicate m
          [EngineStep.insertDeltaTime, EngineStep.clearDirtyFlags,
            EngineStep.runSystems]).flatten := by
      simp only [Engine.updates, Engine.update, Engine.fresh, if_neg, Bool.false_eq_true,
        not_false_iff]
      rw [Engine.updates_ran]
      simp
    constructor
    · rw [htrace]
      simp [List.count_append, hjoin m]
    · intro _
      simpa using htrace

/-- Witness for C3: over two updates of a fresh engine the init step occurs
once, in the first update, between the dirty-flag clear and the system
run. -/
theorem init_system_runs_once_witness :
    (Engine.updates 2 Engine.fresh).1.count EngineStep.runInitSystem ≤ 1 ∧
    (Engine.updates 2 Engine.fresh).1 =
      [EngineStep.insertDeltaTime, EngineStep.clearDirtyFlags, EngineStep.runInitSystem,
        EngineStep.runSystems] ++
      (List.replicate 1
        [EngineStep.insertDeltaTime, EngineStep.clearDirtyFlags,
          EngineStep.runSystems]).flatten :=
  ⟨(init_system_runs_once 2).1, (init_system_runs_once 2).2 (by norm_num)⟩

/-- C9, counterexample: for the transform with translation (1,0,0), scale
(2,1,1) and identity rotation, converting to a matrix and back does not give
the original transform — `as_matrix4` is scale*translation*rotation, so the
matrix's last column holds the scale-multiplied translation (2,0,0), which
is what the conversion back reads as translation. -/
theorem transform_roundtrip_not_identity :
    Transform.fromMatrix4
        (Transform.as_matrix4
          ⟨Vector3f.new 1 0 0, Vector3f.new 2 1 1, Quaternion.new 1 (Vector3f.new 0 0 0)⟩) ≠
      ⟨Vector3f.new 1 0 0, Vector3f.new 2 1 1, Quaternion.new 1 (Vector3f.new 0 0 0)⟩ := by
  intro h
  have hx := congrArg (fun t => t.translation.x) h
  norm_num [Transform.fromMatrix4, Transform.as_matrix4, Matrix4f.mul, Matrix4f.new_scale,
    Matrix4f.new_translation, Quaternion.rotation_matrix, Vector3f.new, Quaternion.new] at hx

/-- C9, amended: for every transform with unit scale (1,1,1) and identity
rotation, converting to a 4x4 homogeneous matrix and back is the identity —
translation, scale and rotation are all recovered, for every translation. -/
theorem transform_roundtrip_identity_unit_scale (x y z : ℚ) :
    Transform.fromMatrix4 (Transform.as_matrix4 (translationOnly x y z)) =
      translationOnly x y z := by
  norm_num [translationOnly, Transform.fromMatrix4, Transform.as_matrix4, Matrix4f.mul,
    Matrix4f.new_scale, Matrix4f.new_translation, Quaternion.rotation_matrix, Vector3f.new,
    Quaternion.new, Vector3f.norm, ratSqrt, natSqrt, natSqrtAux, Quaternion.fromMatrix4]

/-- C1: on the chain A <- B <- C (edges child->parent, A the root with
translation (1,0,0), B (0,1,0), C (0,0,1), everything dirty), the run
completes and stores for C the matrix `B_local * C_local` with translation
(0,1,1): the contribution of the grandparent A is missing, and the stored
matrix differs from the product of B's cached world matrix (which does carry
A, translation (1,1,0)) with C's local matrix, whose translation is
(1,1,1) — the recompute loop multiplies by each parent's `Transform`-derived
local matrix, not by the parent's cached world matrix. -/
theorem chain_cached_matrix_misses_grandparent :
    (computeEffectiveTransforms 16 chainStorage).isOk = true ∧
    (chainStorageAfter.cache.get 2).m03 = 0 ∧
    (chainStorageAfter.cache.get 2).m13 = 1 ∧
    (chainStorageAfter.cache.get 2).m23 = 1 ∧
    ((chainStorageAfter.cache.get 1).mul (Transform.as_matrix4 (translationOnly 0 0 1))).m03
      = 1 ∧
    chainStorageAfter.cache.get 2 ≠
      (chainStorageAfter.cache.get 1).mul (Transform.as_matrix4 (translationOnly 0 0 1)) := by
  have h2a : (chainStorageAfter.cache.get 2).m03 = 0 := by
    show ((Transform.as_matrix4 (translationOnly 0 1 0)).mul
      (Transform.as_matrix4 (translationOnly 0 0 1))).m03 = 0
    norm_num [translationOnly, Transform.as_matrix4, Matrix4f.mul, Matrix4f.new_scale,
      Matrix4f.new_translation, Quaternion.rotation_matrix, Vector3f.new, Quaternion.new]
  have h2b : (chainStorageAfter.cache.get 2).m13 = 1 := by
    show ((Transform.as_matrix4 (translationOnly 0 1 0)).mul
      (Transform.as_matrix4 (translationOnly 0 0 1))).m13 = 1
    norm_num [translationOnly, Transform.as_matrix4, Matrix4f.mul, Matrix4f.new_scale,
      Matrix4f.new_translation, Quaternion.rotation_matrix, Vector3f.new, Quaternion.new]
  have h2c : (chainStorageAfter.cache.get 2).m23 = 1 := by
    show ((Transform.as_matrix4 (translationOnly 0 1 0)).mul
      (Transform.as_matrix4 (translationOnly 0 0 1))).m23 = 1
    norm_num [translationOnly, Transform.as_matrix4, Matrix4f.mul, Matrix4f.new_scale,
      Matrix4f.new_translation, Quaternion.rotation_matrix, Vector3f.new, Quaternion.new]
  have hspec : ((chainStorageAfter.cache.get 1).mul
      (Transform.as_matrix4 (translationOnly 0 0 1))).m03 = 1 := by
    show (((Transform.as_matrix4 (translationOnly 1 0 0)).mul
        (Transform.as_matrix4 (translationOnly 0 1 0))).mul
      (Transform.as_matrix4 (translationOnly 0 0 1))).m03 = 1
    norm_num [translationOnly, Transform.as_matrix4, Matrix4f.mul, Matrix4f.new_scale,
      Matrix4f.new_translation, Quaternion.rotation_matrix, Vector3f.new, Quaternion.new]
  refine ⟨rfl, h2a, h2b, h2c, hspec, ?_⟩
  intro h
  rw [h, hspec] at h2a
  norm_num at h2a

/-- C2: on the two-entity hierarchy A (root, translation (1,0,0)) with child
B (translation (0,1,0)), both dirty, the propagation run completes and B's
cached world matrix has translation (1,1,0); after changing A's translation
to (2,0,0) with only A marked dirty, the rerun completes and updates both
A's cached entry (translation (2,0,0), changed) and B's cached entry
(translation (2,1,0), changed), while the `Transform` component table — in
particular B's `Transform` — is not mutated. -/
theorem pair_hierarchy_propagation :
    (computeEffectiveTransforms 16 pairStorageFirst).isOk = true ∧
    (pairStorageAfterFirst.cache.get 1).m03 = 1 ∧
    (pairStorageAfterFirst.cache.get 1).m13 = 1 ∧
    (pairStorageAfterFirst.cache.get 1).m23 = 0 ∧
    (computeEffectiveTransforms 16 pairStorageSecond).isOk = true ∧
    (pairStorageAfterSecond.cache.get 0).m03 = 2 ∧
    pairStorageAfterSecond.cache.get 0 ≠ pairStorageAfterFirst.cache.get 0 ∧
    (pairStorageAfterSecond.cache.get 1).m03 = 2 ∧
    (pairStorageAfterSecond.cache.get 1).m13 = 1 ∧
    (pairStorageAfterSecond.cache.get 1).m23 = 0 ∧
    pairStorageAfterSecond.cache.get 1 ≠ pairStorageAfterFirst.cache.get 1 ∧
    pairStorageAfterSecond.transforms = pairStorageSecond.transforms ∧
    pairStorageSecond.transforms 1 = pairStorageFirst.transforms 1 := by
  have hB1a : (pairStorageAfterFirst.cache.get 1).m03 = 1 := by
    show ((Transform.as_matrix4 (translationOnly 1 0 0)).mul
      (Transform.as_matrix4 (translationOnly 0 1 0))).m03 = 1
    norm_num [translationOnly, Transform.as_matrix4, Matrix4f.mul, Matrix4f.new_scale,
      Matrix4f.new_translation, Quaternion.rotation_matrix, Vector3f.new, Quaternion.new]
  have hB1b : (pairStorageAfterFirst.cache.get 1).m13 = 1 := by
    show ((Transform.as_matrix4 (translationOnly 1 0 0)).mul
      (Transform.as_matrix4 (translationOnly 0 1 0))).m13 = 1
    norm_num [translationOnly, Transform.as_matrix4, Matrix4f.mul, Matrix4f.new_scale,
      Matrix4f.new_translation, Quaternion.rotation_matrix, Vector3f.new, Quaternion.new]
  have hB1c : (pairStorageAfterFirst.cache.get 1).m23 = 0 := by
    show ((Transform.as_matrix4 (translationOnly 1 0 0)).mul
      (Transform.as_matrix4 (translationOnly 0 1 0))).m23 = 0
    norm_num [translationOnly, Transform.as_matrix4, Matrix4f.mul, Matrix4f.new_scale,
      Matrix4f.new_translation, Quaternion.rotation_matrix, Vector3f.new, Quaternion.new]
  have hA1 : (pairStorageAfterFirst.cache.get 0).m03 = 1 := by
    show (Transform.as_matrix4 (translationOnly 1 0 0)).m03 = 1
    norm_num [translationOnly, Transform.as_matrix4, Matrix4f.mul, Matrix4f.new_scale,
      Matrix4f.new_translation, Quaternion.rotation_matrix, Vector3f.new, Quaternion.new]
  have hA2 : (pairStorageAfterSecond.cache.get 0).m03 = 2 := by
    show (Transform.as_matrix4 (translationOnly 2 0 0)).m03 = 2
    norm_num [translationOnly, Transform.as_matrix4, Matrix4f.mul, Matrix4f.new_scale,
      Matrix4f.new_translation, Quaternion.rotation_matrix, Vector3f.new, Quaternion.new]
  have hB2a : (pairStorageAfterSecond.cache.get 1).m03 = 2 := by
    show ((Transform.as_matrix4 (translationOnly 2 0 0)).mul
      (Transform.as_matrix4 (translationOnly 0 1 0))).m03 = 2
    norm_num [translationOnly, Transform.as_matrix4, Matrix4f.mul, Matrix4f.new_scale,
      Matrix4f.new_translation, Quaternion.rotation_matrix, Vector3f.new, Quaternion.new]
  have hB2b : (pairStorageAfterSecond.cache.get 1).m13 = 1 := by
    show ((Transform.as_matrix4 (translationOnly 2 0 0)).mul
      (Transform.as_matrix4 (translationOnly 0 1 0))).m13 = 1
    norm_num [translationOnly, Transform.as_matrix4, Matrix4f.mul, Matrix4f.new_scale,
      Matrix4f.new_translation, Quaternion.rotation_matrix, Vector3f.new, Quaternion.new]
  have hB2c : (pairStorageAfterSecond.cache.get 1).m23 = 0 := by
    show ((Transform.as_matrix4 (translationOnly 2 0 0)).mul
      (Transform.as_matrix4 (translationOnly 0 1 0))).m23 = 0
    norm_num [translationOnly, Transform.as_matrix4, Matrix4f.mul, Matrix4f.new_scale,
      Matrix4f.new_translation, Quaternion.rotation_matrix, Vector3f.new, Quaternion.new]
  refine ⟨rfl, hB1a, hB1b, hB1c, rfl, hA2, ?_, hB2a, hB2b, hB2c, ?_, rfl, rfl⟩
  · intro h
    rw [h, hA1] at hA2
    norm_num at hA2
  · intro h
    rw [h, hB1a] at hB2a
    norm_num at hB2a


/-- C6: running the transform propagation system twice in succession with no
`Transform` mutation and no dirty-flag change in between leaves every
`TransformCache` entry equal to its value after the first run: the second
run completes and computes identical matrices. -/
theorem propagation_idempotent (fuel : ℕ) (s s₁ : Storage)
    (h : computeEffectiveTransforms fuel s = RunOutcome.ok s₁) :
    ∃ s₂, computeEffectiveTransforms fuel s₁ = RunOutcome.ok s₂ ∧
      ∀ id, s₂.cache.get id = s₁.cache.get id := by
  unfold computeEffectiveTransforms at h
  split at h
  case _ hco =>
    injection h with hs
    refine ⟨s₁, ?_, fun id => rfl⟩
    unfold computeEffectiveTransforms
    have hco₁ : s₁.child_of = none := hs ▸ hco
    rw [hco₁]
  case _ g hco =>
    unfold computeWithGraph at h
    split at h
    case _ hv => exact RunOutcome.noConfusion h
    case _ dl hv =>
      cases hr : recomputeLoop g s.transforms fuel dl [] with
      | panicked => rw [hr] at h; exact RunOutcome.noConfusion h
      | fuelOut => rw [hr] at h; exact RunOutcome.noConfusion h
      | ok ws =>
        rw [hr] at h
        have h' : RunOutcome.ok ({ s with cache := applyWrites s.cache ws } : Storage)
            = RunOutcome.ok s₁ := h
        injection h' with hs₁
        refine ⟨{ s₁ with cache := applyWrites s₁.cache ws }, ?_, ?_⟩
        · unfold computeEffectiveTransforms
          have hco₁ : s₁.child_of = some g := by rw [← hs₁]; exact hco
          conv_lhs => rw [hco₁]
          show computeWithGraph fuel s₁ g
            = RunOutcome.ok { s₁ with cache := applyWrites s₁.cache ws }
          unfold computeWithGraph
          have hv₁ : visitLoop g s₁.dirty_transform fuel (g.leaves s₁.next_entity_id) []
              = some dl := by rw [← hs₁]; exact hv
          conv_lhs => rw [hv₁]
          show applyRecomputeOutcome s₁ (recomputeLoop g s₁.transforms fuel dl [])
            = RunOutcome.ok { s₁ with cache := applyWrites s₁.cache ws }
          have hr₁ : recomputeLoop g s₁.transforms fuel dl [] = RunOutcome.ok ws := by
            rw [← hs₁]; exact hr
          rw [hr₁]
          rfl
        · intro id
          have hc : s₁.cache = applyWrites s.cache ws := by rw [← hs₁]
          show (applyWrites s₁.cache ws).get id = s₁.cache.get id
          rw [hc, TransformCache.get_applyWrites, TransformCache.get_applyWrites]
          cases TransformCache.lastWrite ws id <;> simp

/-- Witness for C6: a concrete completed run on a one-entity storage, rerun
with unchanged cache entries. -/
theorem propagation_idempotent_witness :
    computeEffectiveTransforms 4 singleStorage = RunOutcome.ok singleStorageAfter ∧
    ∃ s₂, computeEffectiveTransforms 4 singleStorageAfter = RunOutcome.ok s₂ ∧
      ∀ id, s₂.cache.get id = singleStorageAfter.cache.get id :=
  ⟨rfl, propagation_idempotent 4 singleStorage singleStorageAfter rfl⟩


/-- Every entity the visit loop records for recompute is either dirty or an
ancestor of a dirty entity, so under the C8 precondition it has a
`Transform`. -/
theorem visitLoop_sound (g : ChildOfGraph) (tf : ℕ → Option Transform) (dirty : ℕ → Bool)
    (h1 : ∀ e, dirty e = true → (tf e).isSome)
    (h2 : ∀ e a, dirty e = true → a ∈ g.ancestors e → (tf a).isSome) :
    ∀ (fuel : ℕ) (to_visit acc out : List ℕ),
      (∀ x ∈ acc, (tf x).isSome) →
      visitLoop g dirty fuel to_visit acc = some out →
      ∀ x ∈ out, (tf x).isSome := by
  intro fuel
  induction fuel with
  | zero =>
    intro tv acc out hacc h
    exact absurd h (by simp [visitLoop])
  | succ fuel ih =>
    intro tv acc out hacc h
    unfold visitLoop at h
    split at h
    · injection h with he
      subst he
      exact hacc
    · rename_i e rest heq
      split at h
      · rename_i hd
        exact ih _ _ out (by
          intro x hx
          rcases List.mem_append.mp hx with hx | hx
          · exact hacc x hx
          · rcases List.mem_cons.mp hx with rfl | hx
            · exact h1 x hd
            · exact h2 e x hd hx) h
      · exact ih _ _ out hacc h

/-- When every entity on the recompute stack has a `Transform` and children
of entities with a `Transform` again have one, the recompute loop never
reaches the panicking `unwrap`. -/
theorem recomputeLoop_no_panic (g : ChildOfGraph) (tf : ℕ → Option Transform)
    (h3 : ∀ e c, (tf e).isSome → c ∈ (g.sources e).getD [] → (tf c).isSome) :
    ∀ (fuel : ℕ) (stack : List ℕ) (writes : List (ℕ × Matrix4f)),
      (∀ x ∈ stack, (tf x).isSome) →
      recomputeLoop g tf fuel stack writes ≠ RunOutcome.panicked := by
  intro fuel
  induction fuel with
  | zero => intro stack writes hstack; simp [recomputeLoop]
  | succ fuel ih =>
    intro stack writes hstack
    unfold recomputeLoop
    split
    · simp
    · rename_i e rest heq
      have hmem := vecPop_mem heq
      have he : (tf e).isSome := hstack e hmem.1
      split
      · rename_i ht
        rw [ht] at he
        exact absurd he (by simp)
      · rename_i t ht
        exact ih _ _ (by
          intro x hx
          rcases List.mem_append.mp hx with hx | hx
          · exact hstack x (hmem.2 x hx)
          · exact h3 e x he hx)

/-- C8: under the precondition that every dirty entity, every ancestor of a
dirty entity, and every child cascaded via `sources` from an entity with a
`Transform` has a `Transform` component, the propagation system's
`component::<Transform>(..).unwrap()` never fails, for any fuel; and on the
concrete storage where the dirty entity B's parent A lacks a `Transform`,
the system panics. -/
theorem recompute_unwrap_never_fails :
    (∀ (fuel : ℕ) (s : Storage),
      (∀ g, s.child_of = some g → transformsCoverRecompute s g) →
      computeEffectiveTransforms fuel s ≠ RunOutcome.panicked) ∧
    computeEffectiveTransforms 16 missingAncestorStorage = RunOutcome.panicked := by
  constructor
  · intro fuel s hpre
    unfold computeEffectiveTransforms
    split
    · simp
    · rename_i g hco
      unfold computeWithGraph
      split
      · simp
      · rename_i dl hv
        obtain ⟨hc1, hc2, hc3⟩ := hpre g hco
        have hdl : ∀ x ∈ dl, (s.transforms x).isSome :=
          visitLoop_sound g s.transforms s.dirty_transform hc1 hc2 fuel _ [] dl
            (by intro x hx; exact absurd hx (List.not_mem_nil x)) hv
        have hnp := recomputeLoop_no_panic g s.transforms hc3 fuel dl [] hdl
        cases hr : recomputeLoop g s.transforms fuel dl [] with
        | panicked => exact absurd hr hnp
        | fuelOut => simp [applyRecomputeOutcome]
        | ok ws => simp [applyRecomputeOutcome]
  · rfl

/-- Witness for C8: the no-panic half applied to a concrete storage whose
entities all carry `Transform`s. -/
theorem recompute_unwrap_never_fails_witness :
    computeEffectiveTransforms 16 coveredAncestorStorage ≠ RunOutcome.panicked := by
  refine recompute_unwrap_never_fails.1 16 coveredAncestorStorage ?_
  intro g hg
  injection hg with hg
  subst hg
  refine ⟨?_, ?_, ?_⟩
  · intro e he
    have he1 : e = 1 := by simpa [coveredAncestorStorage] using he
    subst he1
    rfl
  · intro e a he ha
    have he1 : e = 1 := by simpa [coveredAncestorStorage] using he
    subst he1
    have ha0 : a = 0 := by
      rw [show ChildOfGraph.ancestors ⟨[(1, 0)]⟩ 1 = [0] from rfl] at ha
      simpa using ha
    subst ha0
    rfl
  · intro e c he hc
    by_cases he0 : e = 0
    · subst he0
      have hc1 : c = 1 := by
        rw [show (ChildOfGraph.sources ⟨[(1, 0)]⟩ 0).getD [] = [1] from rfl] at hc
        simpa using hc
      subst hc1
      rfl
    · by_cases he1 : e = 1
      · subst he1
        rw [show (ChildOfGraph.sources ⟨[(1, 0)]⟩ 1).getD [] = [] from rfl] at hc
        exact absurd hc (List.not_mem_nil c)
      · exact absurd he (by simp [coveredAncestorStorage, he0, he1])

end Tubereng
